import Mathlib

/-!
Shallow embedding of `src/BigCode.cpp` (a console trivia-quiz program):
the name validator `isValidName`, the bounded question-loading loop of
`main`, the file-open / exit-code control flow of `main`, and the
`[[noreturn]]` helper `checkOutFile`, together with theorems about them.
-/

namespace BigCode

/-! ## Definitions

### NameValidator (`isValidName`, BigCode.cpp lines 172-188) -/

/-- The allow-list string from the source:
`string charactersToInclude = "abcdefghijklmnopqrstuvwxyz";`. -/
def charactersToInclude : String := "abcdefghijklmnopqrstuvwxyz"

/-- Model of `std::tolower` on a `char` in the default locale: the 26
uppercase ASCII letters map to their lowercase forms, every other
character is returned unchanged. -/
def toLowerChar (c : Char) : Char :=
  if 'A' ≤ c ∧ c ≤ 'Z' then Char.ofNat (c.toNat + 32) else c

/-- `isValidName` from the source: for each character `c` of `name`,
compute `lowercaseC = tolower(c)` and return `false` as soon as
`charactersToInclude.find(lowercaseC) == string::npos`; return `true`
when the loop finishes.  The early-`return false` loop is exactly
`List.all` of the membership test. -/
def isValidName (name : String) : Bool :=
  name.data.all (fun c => charactersToInclude.data.contains (toLowerChar c))

/-! ### QuestionLoader (the loading loop of `main`, BigCode.cpp lines 398-455) -/

/-- `class Question`: constructed as `Question(string q)` with
initializer list `question(q), answer(false)`. -/
structure Question where
  question : String
  answer : Bool
deriving DecidableEq, Repr

/-- `Question(line)` — the only constructor call in the loading loop;
`answer` always defaults to `false`. -/
def mkQuestion (line : String) : Question := Question.mk line false

/-- `numeric_limits<unsigned int>::max()` for the 32-bit `unsigned int`
of the target platform. -/
def UINT_MAX : Nat := 2 ^ 32 - 1

/-- `SCHAR_MAX` from `<climits>`. -/
def SCHAR_MAX : Nat := 127

/-- `const int maxQuestions = 50;` (line 406). -/
def maxQuestions : Int := 50

/-- `static_cast<unsigned int>` applied to a signed value: reduction
modulo `2^32`, yielding a nonnegative representative. -/
def toUnsigned (i : Int) : Nat := (i % (2 ^ 32)).toNat

/-- How the loading loop ends: `Complete` when `getline` exhausts the
file, `Truncated` when the `maxQuestions` bound stops the loop (the
"maximum number of questions is 50" message, line 439), `Aborted` for
the `questionCount >= UINT_MAX` guard (the "Too many questions.
Aborting." message, line 419). -/
inductive LoadStatus where
  | Complete
  | Truncated
  | Aborted
deriving DecidableEq, Repr

/-- The loop state of `main` during loading: the vector `questions`,
the `unsigned int questionCount`, and the `int questionCountInt`.
`questionCountInt` is declared without an initializer in the source
(line 409), so `load` below takes its indeterminate initial value as a
parameter. -/
structure LoadState where
  questions : List Question
  questionCount : Nat
  questionCountInt : Int
deriving DecidableEq, Repr

/-- Lines 423-428 of the source: `if (questionCount <= SCHAR_MAX)
questionCountInt = questionCount;` — the value that the subsequent
bound comparison reads from `questionCountInt`. -/
def comparisonValue (s : LoadState) : Int :=
  if s.questionCount ≤ SCHAR_MAX then (s.questionCount : Int) else s.questionCountInt

/-- The body of `while (getline(questionFile, line))` (lines 413-455),
one recursive call per line read:
* empty source: `getline` fails, the loop ends normally (`Complete`);
* `if (questionCount >= numeric_limits<unsigned int>::max())` → break
  (`Aborted`);
* `if (questionCount <= SCHAR_MAX) questionCountInt = questionCount;`
* `if (static_cast<unsigned int>(questionCountInt) <
  static_cast<unsigned int>(maxQuestions))` → push `Question(line)` and
  `questionCount++` (an `unsigned int` increment, i.e. modulo `2^32`);
* else → print the truncation message and break (`Truncated`).
The leaked `new (nothrow) Question(line)` allocation at line 442 never
touches the vector or the counters and is modelled as succeeding. -/
def loadLoop : List String → LoadState → LoadState × LoadStatus
  | [], s => (s, LoadStatus.Complete)
  | line :: rest, s =>
    if UINT_MAX ≤ s.questionCount then (s, LoadStatus.Aborted)
    else if toUnsigned (comparisonValue s) < toUnsigned maxQuestions then
      loadLoop rest
        (LoadState.mk (s.questions ++ [mkQuestion line])
          ((s.questionCount + 1) % 2 ^ 32) (comparisonValue s))
    else
      (LoadState.mk s.questions s.questionCount (comparisonValue s),
        LoadStatus.Truncated)

/-- The whole loading phase: `questions` empty, `questionCount = 0`,
and `questionCountInt` holding an arbitrary indeterminate value
`initCI` (it is declared without an initializer at line 409). -/
def load (lines : List String) (initCI : Int) : LoadState × LoadStatus :=
  loadLoop lines (LoadState.mk [] 0 initCI)

/-! ### Process-level control flow of `main` (file opens, exit codes)

`checkOutFile` (lines 144-153) is declared `[[noreturn]]` and indeed
never returns: it either throws (when `ferror` reports a stream error)
or calls `exit(0)`.  Its codomain below therefore has no
normal-return constructor. -/

/-- The two ways `checkOutFile` can end the process: `exits code` for
the `fclose(outputFile); exit(0);` path, `throws` for
`throw "Error: Failed to write to file";` — a `const char*` exception
that no handler in the program matches. -/
inductive COutcome where
  | exits (code : Nat)
  | throws
deriving DecidableEq, Repr

/-- `checkOutFile` (lines 144-153), as a function from the state of
`ferror(outputFile)` to how it terminates the process. -/
def checkOutFile (ferr : Bool) : COutcome :=
  if ferr then COutcome.throws else COutcome.exits 0

/-- How a whole run of the process ends: `normal code` for a `return`
from `main` or an `exit(code)` call, `abnormal` for termination through
an uncaught exception (`std::terminate` / abort — reported to the OS as
an unsuccessful, non-zero termination, never as a success code). -/
inductive ProcExit where
  | normal (code : Nat)
  | abnormal
deriving DecidableEq, Repr

/-- The filesystem collaborator of one run: whether each of the three
file opens of `main` succeeds, and whether `ferror` reports a write
error on the `output.txt` stream. -/
structure FileEnv where
  inputOpens : Bool
  appendOpens : Bool
  outputOpens : Bool
  outputWriteError : Bool
deriving DecidableEq, Repr

/-- The file-handling control flow of `main` (lines 379-600), given the
filesystem environment, the lines of `triviaquestions.txt`, and the
indeterminate initial value of `questionCountInt`.  Returns the loaded
question sequence (`none` when loading never ran) and the process exit:
* `ifstream questionFile` fails → `throw runtime_error(...)` (line 388),
  caught nowhere → abnormal termination; the loading loop never runs;
* otherwise the loading loop runs (the `clear`/`seekg` calls change no
  observable state here);
* `ofstream questionFileOut` fails → `cerr << ...; return 1;` (line 466);
* `fopen("output.txt", "w")` fails → `cerr << ...; goto cleanup;`
  (line 478) which lands on `return 0;` (line 600);
* otherwise control reaches `checkOutFile(outputFile)` (line 578),
  which never returns, so the statements at lines 579-592 (including
  `fclose(outputFile)` and the two `close()` calls) are on no path. -/
def mainRun (env : FileEnv) (lines : List String) (ci : Int) :
    Option (List Question) × ProcExit :=
  if env.inputOpens = false then
    (none, ProcExit.abnormal)
  else
    let loaded := (load lines ci).1.questions
    if env.appendOpens = false then (some loaded, ProcExit.normal 1)
    else if env.outputOpens = false then (some loaded, ProcExit.normal 0)
    else
      match checkOutFile env.outputWriteError with
      | COutcome.exits c => (some loaded, ProcExit.normal c)
      | COutcome.throws => (some loaded, ProcExit.abnormal)

/-! ### The status line appended to the question file (lines 457-469) -/

/-- The fixed line that `main` writes to `questionFileOut` (line 469). -/
def statusLine : String :=
  "All the data has been read from the questions file successfully."

/-- Effect of one successful run on `triviaquestions.txt`: the file is
reopened in `ios::app` mode (line 461) — the very file the questions
were read from — and `statusLine` is appended after its last line. -/
def fileAfterRun (lines : List String) : List String := lines ++ [statusLine]

/-! ### The name prompt loop (lines 337-352) -/

/-- Whitespace for formatted stream extraction (`cin >> name` skips and
stops at it): space, tab, newline, carriage return, vertical tab
(code 11) and form feed (code 12). -/
def isStreamWS (c : Char) : Bool :=
  c = ' ' || c = '\t' || c = '\n' || c = '\r' || c = Char.ofNat 11 || c = Char.ofNat 12

/-- `cin >> name` on a pending input: skip leading whitespace, then
take the maximal whitespace-free token; returns the token and the rest
of the input. -/
def extractToken (input : List Char) : List Char × List Char :=
  ((input.dropWhile isStreamWS).takeWhile (fun c => !isStreamWS c),
   (input.dropWhile isStreamWS).dropWhile (fun c => !isStreamWS c))

/-- The `do { ... cin >> name; ... } while (!isValidName(name));` retry
loop of `main`: extract one token per iteration and stop at the first
token that `isValidName` accepts.  `fuel` bounds the number of
iterations modelled; `none` means the loop was still running. -/
def namePromptLoop : Nat → List Char → Option String
  | 0, _ => none
  | fuel + 1, input =>
    if isValidName (String.mk (extractToken input).1)
    then some (String.mk (extractToken input).1)
    else namePromptLoop fuel (extractToken input).2

/-! ## Helper lemmas -/

theorem toUnsigned_ofNat (c : Nat) (h : c < 2 ^ 32) : toUnsigned (c : Int) = c := by
  unfold toUnsigned
  rw [Int.emod_eq_of_lt (by positivity) (by exact_mod_cast h)]
  simp

theorem toUnsigned_maxQuestions : toUnsigned maxQuestions = 50 := by decide

/-- Full characterisation of the loading loop from any in-bound state:
the loop appends `Question`s for the first `50 - c` lines, the counter
advances by `min lines.length (50 - c)` without ever wrapping, and the
loop ends `Complete` exactly when the source runs out within the
bound. -/
theorem loadLoop_spec (lines : List String) (qs : List Question) (c : Nat) (ci : Int)
    (hc : c ≤ 50) :
    (loadLoop lines (LoadState.mk qs c ci)).1.questions
        = qs ++ (lines.take (50 - c)).map mkQuestion
      ∧ (loadLoop lines (LoadState.mk qs c ci)).1.questionCount
        = c + min lines.length (50 - c)
      ∧ (loadLoop lines (LoadState.mk qs c ci)).2
        = if lines.length + c ≤ 50 then LoadStatus.Complete else LoadStatus.Truncated := by
  induction lines generalizing qs c ci with
  | nil =>
    simp only [loadLoop, List.take_nil, List.map_nil, List.append_nil, List.length_nil]
    refine ⟨trivial, by omega, ?_⟩
    rw [if_pos (by omega)]
  | cons line rest ih =>
    have hguard : ¬ (UINT_MAX ≤ c) := by
      unfold UINT_MAX; omega
    have hsc : c ≤ SCHAR_MAX := by unfold SCHAR_MAX; omega
    have hcv : comparisonValue (LoadState.mk qs c ci) = (c : Int) := by
      simp [comparisonValue, hsc]
    have htu : toUnsigned ((c : Nat) : Int) = c := toUnsigned_ofNat c (by omega)
    by_cases h50 : c < 50
    · have hlt : toUnsigned (comparisonValue (LoadState.mk qs c ci)) < toUnsigned maxQuestions := by
        rw [hcv, htu, toUnsigned_maxQuestions]; exact h50
      have hmod : (c + 1) % 2 ^ 32 = c + 1 := Nat.mod_eq_of_lt (by omega)
      have hstep : loadLoop (line :: rest) (LoadState.mk qs c ci)
          = loadLoop rest (LoadState.mk (qs ++ [mkQuestion line]) (c + 1) (c : Int)) := by
        conv_lhs => rw [loadLoop]
        rw [if_neg hguard, if_pos hlt, hcv, hmod]
      rw [hstep]
      obtain ⟨h1, h2, h3⟩ := ih (qs ++ [mkQuestion line]) (c + 1) (c : Int) (by omega)
      refine ⟨?_, ?_, ?_⟩
      · rw [h1]
        have h5 : (50 - c) = (50 - (c + 1)) + 1 := by omega
        rw [h5, List.take_succ_cons]
        simp
      · rw [h2, List.length_cons]; omega
      · rw [h3, List.length_cons,
          show rest.length + (c + 1) = rest.length + 1 + c from by omega]
    · have hc50 : c = 50 := by omega
      subst hc50
      have hnlt : ¬ (toUnsigned (comparisonValue (LoadState.mk qs 50 ci)) < toUnsigned maxQuestions) := by
        rw [hcv, htu, toUnsigned_maxQuestions]; omega
      have hstep : loadLoop (line :: rest) (LoadState.mk qs 50 ci)
          = (LoadState.mk qs 50 (comparisonValue (LoadState.mk qs 50 ci)), LoadStatus.Truncated) := by
        conv_lhs => rw [loadLoop]
        rw [if_neg hguard, if_neg hnlt]
      rw [hstep]
      refine ⟨by simp, by simp, ?_⟩
      rw [List.length_cons, if_neg (by omega)]

/-- `loadLoop_spec` at the initial state of `main`. -/
theorem load_spec (lines : List String) (ci : Int) :
    (load lines ci).1.questions = (lines.take 50).map mkQuestion
      ∧ (load lines ci).1.questionCount = min lines.length 50
      ∧ (load lines ci).2
        = if lines.length ≤ 50 then LoadStatus.Complete else LoadStatus.Truncated := by
  obtain ⟨h1, h2, h3⟩ := loadLoop_spec lines [] 0 ci (by omega)
  unfold load
  refine ⟨by simpa using h1, by simpa using h2, by simpa using h3⟩

theorem load_questions_length (lines : List String) (ci : Int) :
    (load lines ci).1.questions.length = min lines.length 50 := by
  obtain ⟨h1, _, _⟩ := load_spec lines ci
  rw [h1]
  simp [min_comm]

theorem contains_iff_mem_char (l : List Char) (a : Char) :
    l.contains a = true ↔ a ∈ l := by
  simp [List.contains]

theorem mem_charactersToInclude_of_range (c : Char)
    (h1 : 97 ≤ c.toNat) (h2 : c.toNat ≤ 122) :
    c ∈ charactersToInclude.data := by
  have key : ∀ n ∈ Finset.Icc 97 122, Char.ofNat n ∈ charactersToInclude.data := by decide
  have h := key c.toNat (Finset.mem_Icc.mpr ⟨h1, h2⟩)
  rwa [Char.ofNat_toNat] at h

theorem range_of_mem_charactersToInclude :
    ∀ c ∈ charactersToInclude.data, 97 ≤ c.toNat ∧ c.toNat ≤ 122 := by decide

/-! ## Claim theorems -/

/-- Claim C1: for every finite line source and the bound
`maxQuestions = 50`, the loading loop produces exactly the `Question`s
built from the first `min n 50` lines in file order; when `n ≤ 50` the
sequence has length `n` and the loop ends `Complete`, when `n > 50` it
has length exactly `50` and the loop ends `Truncated` — for every
indeterminate initial value of `questionCountInt`. -/
theorem loading_firstMinLines (lines : List String) (ci : Int) :
    (load lines ci).1.questions = (lines.take 50).map mkQuestion
      ∧ (load lines ci).1.questions.length = min lines.length 50
      ∧ (load lines ci).2
        = if lines.length ≤ 50 then LoadStatus.Complete else LoadStatus.Truncated := by
  obtain ⟨h1, _, h3⟩ := load_spec lines ci
  exact ⟨h1, load_questions_length lines ci, h3⟩

/-- Witness for C1, on the scenario from the spec: two lines load as
two `Question`s in order with status `Complete`. -/
theorem loading_firstMinLines_witness :
    (load ["Capital of France?", "2+2=?"] 3).1.questions
        = [mkQuestion "Capital of France?", mkQuestion "2+2=?"]
      ∧ (load ["Capital of France?", "2+2=?"] 3).1.questions.length = 2
      ∧ (load ["Capital of France?", "2+2=?"] 3).2 = LoadStatus.Complete := by
  obtain ⟨h1, h2, h3⟩ := loading_firstMinLines ["Capital of France?", "2+2=?"] 3
  refine ⟨?_, ?_, ?_⟩
  · rw [h1]; decide
  · rw [h2]; decide
  · rw [h3]; decide

/-- Claim C2: `isValidName s` is `true` exactly when every character of
`s`, case-folded by `tolower`, is one of the 26 lowercase English
letters (character codes 97 to 122); the empty string is vacuously
valid and `"Kyle3"` is rejected.  The embedded function is total over
all strings by construction. -/
theorem isValidName_characterisation (s : String) :
    (isValidName s = true
        ↔ ∀ c ∈ s.data, 97 ≤ (toLowerChar c).toNat ∧ (toLowerChar c).toNat ≤ 122)
      ∧ isValidName "" = true
      ∧ isValidName "Kyle3" = false := by
  refine ⟨?_, by decide, by decide⟩
  unfold isValidName
  rw [List.all_eq_true]
  constructor
  · intro h c hc
    exact range_of_mem_charactersToInclude _ ((contains_iff_mem_char _ _).mp (h c hc))
  · intro h c hc
    exact (contains_iff_mem_char _ _).mpr
      (mem_charactersToInclude_of_range _ (h c hc).1 (h c hc).2)

/-- Witness for C2 at the concrete candidate `"Kyle3"`. -/
theorem isValidName_characterisation_witness :
    (isValidName "Kyle3" = true
        ↔ ∀ c ∈ ("Kyle3" : String).data,
            97 ≤ (toLowerChar c).toNat ∧ (toLowerChar c).toNat ≤ 122)
      ∧ isValidName "" = true
      ∧ isValidName "Kyle3" = false :=
  isValidName_characterisation "Kyle3"

/-- Claim C3, evaluation at the failing input: when `output.txt` fails
to open while both opens of `triviaquestions.txt` succeed, the process
takes `goto cleanup` and terminates with exit code `0` — a success
code, not the distinct non-zero code the claim requires. -/
theorem outputOpenFailure_exitsZero :
    (mainRun (FileEnv.mk true true false false) [] 0).2 = ProcExit.normal 0 := by
  rfl

/-- Claim C4: during loading the count never wraps — after every prefix
of the source the count is strictly below `UINT_MAX` (so the guarded
increment cannot overflow), the value `questionCountInt` contributes to
the bound comparison always equals the true count after the
unsigned cast, and the overflow-abort branch is unreachable. -/
theorem counting_no_wrap (lines : List String) (ci : Int) (k : Nat) :
    (load (lines.take k) ci).1.questionCount < UINT_MAX
      ∧ toUnsigned (comparisonValue (load (lines.take k) ci).1)
          = (load (lines.take k) ci).1.questionCount
      ∧ (load lines ci).2 ≠ LoadStatus.Aborted := by
  obtain ⟨_, h2, _⟩ := load_spec (lines.take k) ci
  obtain ⟨_, _, h3⟩ := load_spec lines ci
  have hcnt : (load (lines.take k) ci).1.questionCount ≤ 50 := by rw [h2]; omega
  refine ⟨by unfold UINT_MAX; omega, ?_, ?_⟩
  · have hsc : (load (lines.take k) ci).1.questionCount ≤ SCHAR_MAX := by
      unfold SCHAR_MAX; omega
    unfold comparisonValue
    rw [if_pos hsc, toUnsigned_ofNat _ (by omega)]
  · rw [h3]
    split <;> simp

/-- Witness for C4 on a 60-line source and a negative indeterminate
`questionCountInt` start value. -/
theorem counting_no_wrap_witness :
    (load ((List.replicate 60 "q").take 55) (-3)).1.questionCount < UINT_MAX
      ∧ toUnsigned (comparisonValue (load ((List.replicate 60 "q").take 55) (-3)).1)
          = (load ((List.replicate 60 "q").take 55) (-3)).1.questionCount
      ∧ (load (List.replicate 60 "q") (-3)).2 ≠ LoadStatus.Aborted :=
  counting_no_wrap (List.replicate 60 "q") (-3) 55

/-- Claim C5: after every loop iteration (equivalently, for every
prefix of the source) the in-memory sequence holds at most 50
questions; the loop reports `Truncated` exactly when the source is
longer than the bound, in which case the sequence holds exactly 50
entries — lines past the bound are not silently dropped. -/
theorem bound_invariant (lines : List String) (ci : Int) (k : Nat) :
    (load (lines.take k) ci).1.questions.length ≤ 50
      ∧ ((load lines ci).2 = LoadStatus.Truncated ↔ 50 < lines.length)
      ∧ (50 < lines.length → (load lines ci).1.questions.length = 50) := by
  obtain ⟨_, _, h3⟩ := load_spec lines ci
  refine ⟨?_, ?_, ?_⟩
  · rw [load_questions_length]; omega
  · rw [h3]
    by_cases h : lines.length ≤ 50
    · rw [if_pos h]
      constructor
      · intro hco; exact absurd hco (by simp)
      · omega
    · rw [if_neg h]
      constructor
      · intro _; omega
      · intro _; rfl
  · intro _
    rw [load_questions_length]; omega

/-- Witness for C5, on the scenario from the spec: 75 source lines give
a 50-question sequence and status `Truncated`. -/
theorem bound_invariant_witness :
    (load ((List.replicate 75 "q").take 60) 0).1.questions.length ≤ 50
      ∧ (load (List.replicate 75 "q") 0).2 = LoadStatus.Truncated
      ∧ (load (List.replicate 75 "q") 0).1.questions.length = 50 := by
  obtain ⟨h1, h2, h3⟩ := bound_invariant (List.replicate 75 "q") 0 60
  exact ⟨h1, h2.mpr (by simp), h3 (by simp)⟩

/-- Claim C6: when the question line source fails to open, loading is
skipped entirely — no `Question` sequence is produced at all — and the
run ends abnormally (the `runtime_error` thrown at line 388 is caught
nowhere), which the OS reports as an unsuccessful, non-zero
termination. -/
theorem sourceUnavailable_skipsLoading (env : FileEnv) (lines : List String) (ci : Int)
    (h : env.inputOpens = false) :
    (mainRun env lines ci).1 = none ∧ (mainRun env lines ci).2 = ProcExit.abnormal := by
  unfold mainRun
  rw [h]
  exact ⟨rfl, rfl⟩

/-- Witness for C6: a concrete environment whose question file fails to
open, with a non-empty pending file content. -/
theorem sourceUnavailable_skipsLoading_witness :
    (mainRun (FileEnv.mk false true true false) ["q1"] 0).1 = none
      ∧ (mainRun (FileEnv.mk false true true false) ["q1"] 0).2 = ProcExit.abnormal :=
  sourceUnavailable_skipsLoading (FileEnv.mk false true true false) ["q1"] 0 rfl

/-- Claim C7: loading is deterministic and idempotent over an immutable
source — two runs of the loading algorithm on the same lines and the
same bound yield the same question sequence in the same order and the
same status, even when the indeterminate initial values of the
uninitialized `questionCountInt` differ between the runs. -/
theorem loading_deterministic (lines : List String) (ci ci' : Int) :
    (load lines ci).1.questions = (load lines ci').1.questions
      ∧ (load lines ci).2 = (load lines ci').2 := by
  obtain ⟨h1, _, h3⟩ := load_spec lines ci
  obtain ⟨h1', _, h3'⟩ := load_spec lines ci'
  exact ⟨h1.trans h1'.symm, h3.trans h3'.symm⟩

/-- Claim C8, counterexample: on a 50-line question file, the run
appends the status line (making 51 lines), yet the next run still
loads 50 questions, not one more — the claim fails as stated. -/
theorem appendGrowth_counterexample :
    ¬ ((load (fileAfterRun (List.replicate 50 "q")) 0).1.questions.length
        = (load (List.replicate 50 "q") 0).1.questions.length + 1) := by
  rw [load_questions_length, load_questions_length]
  simp [fileAfterRun]

/-- Claim C8 as amended: every run appends the fixed status line to
`triviaquestions.txt` — the same file the questions were read from —
so the file is mutated by every run and grows by exactly one line,
whatever its size; an identical subsequent run loads one additional
question record provided the file held fewer than 50 lines, while at
or beyond the bound both runs load exactly 50. -/
theorem appendStatusLine_growth (lines : List String) (ci ci' : Int) :
    fileAfterRun lines ≠ lines
      ∧ (fileAfterRun lines).length = lines.length + 1
      ∧ (lines.length < 50 →
          (load (fileAfterRun lines) ci').1.questions.length
            = (load lines ci).1.questions.length + 1)
      ∧ (50 ≤ lines.length →
          (load (fileAfterRun lines) ci').1.questions.length = 50
            ∧ (load lines ci).1.questions.length = 50) := by
  refine ⟨?_, by simp [fileAfterRun], ?_, ?_⟩
  · intro he
    have hlen := congrArg List.length he
    simp [fileAfterRun] at hlen
  · intro h
    rw [load_questions_length, load_questions_length]
    simp only [fileAfterRun, List.length_append, List.length_singleton]
    omega
  · intro h
    refine ⟨?_, ?_⟩
    · rw [load_questions_length]
      simp only [fileAfterRun, List.length_append, List.length_singleton]
      omega
    · rw [load_questions_length]
      omega

/-- Witness for the amended C8, exercising both branches: a one-line
file gains one loaded question on the next run, while a 50-line file
loads exactly 50 questions on both runs. -/
theorem appendStatusLine_growth_witness :
    (load (fileAfterRun ["Capital of France?"]) 7).1.questions.length
        = (load ["Capital of France?"] 0).1.questions.length + 1
      ∧ (load (fileAfterRun (List.replicate 50 "q")) 0).1.questions.length = 50
      ∧ (load (List.replicate 50 "q") 0).1.questions.length = 50 := by
  obtain ⟨-, -, h3, -⟩ := appendStatusLine_growth ["Capital of France?"] 0 7
  obtain ⟨-, -, -, h4⟩ := appendStatusLine_growth (List.replicate 50 "q") 0 0
  exact ⟨h3 (by simp), (h4 (by simp)).1, (h4 (by simp)).2⟩

/-- Claim C9: whenever the name prompt loop terminates with an accepted
name, that name satisfies `isValidName`; and because each candidate is
read by formatted extraction (`cin >> name`), the accepted name is a
single whitespace-delimited token — it can never contain a space or any
other stream whitespace, so a multi-word entry is never validated as
one candidate. -/
theorem acceptedName_valid (fuel : Nat) (input : List Char) (name : String)
    (h : namePromptLoop fuel input = some name) :
    isValidName name = true ∧ ∀ c ∈ name.data, isStreamWS c = false := by
  induction fuel generalizing input with
  | zero => simp [namePromptLoop] at h
  | succ fuel ih =>
    unfold namePromptLoop at h
    by_cases hv : isValidName (String.mk (extractToken input).1)
    · rw [if_pos hv] at h
      obtain rfl : String.mk (extractToken input).1 = name := Option.some.inj h
      refine ⟨hv, ?_⟩
      intro c hc
      have hmem : c ∈ (input.dropWhile isStreamWS).takeWhile (fun c => !isStreamWS c) := hc
      have hp := List.mem_takeWhile_imp hmem
      simpa using hp
    · rw [if_neg hv] at h
      exact ih _ h

/-- Witness for C9: on the console input `"Kyle3 Bob"`, the loop
rejects `Kyle3` (digit present) and accepts the second token `Bob`,
which is valid and whitespace-free. -/
theorem acceptedName_valid_witness :
    isValidName "Bob" = true ∧ ∀ c ∈ ("Bob" : String).data, isStreamWS c = false :=
  acceptedName_valid 2 ("Kyle3 Bob" : String).data "Bob" (by decide)

/-- Claim C10: control never returns from `checkOutFile` — on every
input it either exits the process with code 0 or throws the
`const char*` exception — and on every run of `main` that reaches the
call (all three files opened), the exit of the whole process is decided
inside `checkOutFile`, so the statements after the call (lines 579-592)
are executed on no run. -/
theorem checkOutFile_neverReturns (env : FileEnv) (lines : List String) (ci : Int)
    (h1 : env.inputOpens = true) (h2 : env.appendOpens = true)
    (h3 : env.outputOpens = true) :
    (checkOutFile env.outputWriteError = COutcome.exits 0
        ∨ checkOutFile env.outputWriteError = COutcome.throws)
      ∧ (mainRun env lines ci).2
        = if env.outputWriteError then ProcExit.abnormal else ProcExit.normal 0 := by
  constructor
  · unfold checkOutFile
    by_cases h : env.outputWriteError
    · rw [if_pos h]; exact Or.inr rfl
    · rw [if_neg h]; exact Or.inl rfl
  · unfold mainRun
    rw [h1, h2, h3]
    simp only [Bool.true_eq_false, if_false]
    unfold checkOutFile
    by_cases h : env.outputWriteError
    · rw [h]; rfl
    · rw [Bool.not_eq_true] at h; rw [h]; rfl

/-- Witness for C10: a run whose three files all open and whose output
stream reports a write error terminates through the uncaught throw. -/
theorem checkOutFile_neverReturns_witness :
    ((checkOutFile (FileEnv.mk true true true true).outputWriteError = COutcome.exits 0
        ∨ checkOutFile (FileEnv.mk true true true true).outputWriteError = COutcome.throws)
      ∧ (mainRun (FileEnv.mk true true true true) ["q1"] 0).2
        = if (FileEnv.mk true true true true).outputWriteError
            then ProcExit.abnormal else ProcExit.normal 0) :=
  checkOutFile_neverReturns (FileEnv.mk true true true true) ["q1"] 0 rfl rfl rfl

end BigCode
